import Mathlib

/-!
Verification of the `ola-recorder` show tool (examples/ola-recorder.cpp).

This file gives a shallow embedding of the verification path of the tool:
the `VerifyShow` scan loop with its pre-start clamp and stop-clip, the
`ClampVerifyFrameCount` helper, the dispatch logic of `main`, and a model of
the `ShowLoader` cursor (whose implementation lives outside the files at
hand and is therefore modelled from its documented contract).

Conventions of the embedding:
* `unsigned int` / `uint32_t` / `uint64_t` values are modelled as `Nat`;
  none of the properties below depends on wrap-around behaviour.
* `std::map<unsigned int, unsigned int>` with `operator[]` defaulting to `0`
  is modelled as a total function `Nat → Nat` (absent keys read as `0`;
  clamping keys present in the map agrees with pointwise clamping because
  absent keys hold `0`).
* the stream of results a `ShowLoader` yields to `VerifyShow` is a finite
  list of decoded entries followed by a sticky terminal condition
  (`END_OF_FILE` or a format error); a failed `Load()` is `Option.none`.
-/

/-- ShowEntry as used by `VerifyShow`: a universe id and the wait (ms)
since the previous entry.  The DMX payload is irrelevant to every claim
and is omitted. -/
structure ShowEntry where
  «universe» : Nat
  next_wait : Nat
  deriving DecidableEq, Repr

/-- Terminal condition of a loader scan: clean end of stream, or a
malformed record (any `ShowLoader::State` other than `OK`/`END_OF_FILE`). -/
inductive LoaderTerminal where
  | endOfStream
  | formatError
  deriving DecidableEq, Repr

/-- What a successful `Load()` exposes to the scan: the decoded entries in
order, then the terminal condition the cursor sticks at. -/
structure LoaderOutcome where
  entries : List ShowEntry
  terminal : LoaderTerminal
  deriving DecidableEq, Repr

/-- Process exit codes used by the tool (ola sysexits). -/
inductive ExitCode where
  | ok
  | usage
  | noinput
  | dataerr
  deriving DecidableEq, Repr

/-- Mutable state of the `VerifyShow` loop: `playback_pos` (uint64
virtual clock), the `playing` flag, and the `frames_by_universe` map. -/
structure VState where
  playback_pos : Nat
  playing : Bool
  counts : Nat → Nat

/-- Embedding of `ClampVerifyFrameCount`: every counter strictly above 1 is
lowered to 1 (i.e. every counter becomes `min (counts u) 1` pointwise,
since values are naturals). -/
def clampVerifyFrameCount (counts : Nat → Nat) : Nat → Nat :=
  fun u => if counts u > 1 then 1 else counts u

/-- Increment of `frames_by_universe[entry.universe]++`. -/
def bumpCount (counts : Nat → Nat) (u : Nat) : Nat → Nat :=
  fun v => if v = u then counts v + 1 else counts v

/-- One iteration of the `VerifyShow` while-loop body on a decoded entry:
advance `playback_pos`, count the frame, then test the stop clip (which
clamps `playback_pos` to `stop_ms` and breaks), then test the start
crossing (which sets `playing` and clamps the counters).  The returned
`Bool` is `true` iff the loop breaks via the stop clip. -/
def verifyStep (start_ms stop_ms : Nat) (s : VState) (e : ShowEntry) :
    VState × Bool :=
  let pos := s.playback_pos + e.next_wait
  let counts := bumpCount s.counts e.«universe»
  if stop_ms > 0 ∧ pos ≥ stop_ms then
    (⟨stop_ms, s.playing, counts⟩, true)
  else if s.playing = false ∧ pos > start_ms then
    (⟨pos, true, clampVerifyFrameCount counts⟩, false)
  else
    (⟨pos, s.playing, counts⟩, false)

/-- The `VerifyShow` scan over the decoded entries, threading the state;
returns the final state and whether the scan ended via the stop clip
(`true`) or by exhausting the decoded entries (`false`). -/
def verifyScan (start_ms stop_ms : Nat) (s : VState) :
    List ShowEntry → VState × Bool
  | [] => (s, false)
  | e :: rest =>
    let step := verifyStep start_ms stop_ms s e
    if step.2 then (step.1, true) else verifyScan start_ms stop_ms step.1 rest

/-- Initial state of the scan: position 0, not playing, empty map. -/
def initVState : VState := ⟨0, false, fun _ => 0⟩

/-- Observable outcome of `VerifyShow` on a loadable file: the final
per-universe counts, the reported `total_time`, and the exit code. -/
structure VerifyResult where
  counts : Nat → Nat
  total_time : Nat
  exit : ExitCode

/-- Embedding of `VerifyShow` after a successful `Load()`: run the scan,
compute `total_time = playback_pos - start` (0 when the show ends before
the start), and derive the exit code: `OK` when the loop broke via the
stop clip (last `NextEntry` still returned `OK`) or the terminal state was
`END_OF_FILE`, `DATAERR` otherwise. -/
def verifyShowRun (start_ms stop_ms : Nat) (o : LoaderOutcome) :
    VerifyResult :=
  let scan := verifyScan start_ms stop_ms initVState o.entries
  let total_time :=
    if scan.1.playback_pos ≥ start_ms then scan.1.playback_pos - start_ms
    else 0
  let exit :=
    if scan.2 then ExitCode.ok
    else
      match o.terminal with
      | .endOfStream => ExitCode.ok
      | .formatError => ExitCode.dataerr
  ⟨scan.1.counts, total_time, exit⟩

/-- Embedding of the whole of `VerifyShow`, including the `Load()` failure
path, which returns `EXIT_NOINPUT` before any entry is consumed. -/
def verifyShowExit (start_ms stop_ms : Nat) :
    Option LoaderOutcome → ExitCode
  | none => ExitCode.noinput
  | some o => (verifyShowRun start_ms stop_ms o).exit

/-- Cumulative virtual time after the first `n` entries: the sum of their
waits (the derived `cumulative_time` of the entry model). -/
def cumWait (entries : List ShowEntry) (n : Nat) : Nat :=
  ((entries.take n).map ShowEntry.next_wait).sum

/-! ### ShowLoader cursor model

The `ShowLoader` implementation (examples/ShowLoader.cpp) is not among the
files at hand; only its caller `VerifyShow` is.  The cursor below is
modelled from the spec's contract for the Loader. -/

/-- One persisted record as the Loader sees it: either well-formed,
decoding to a `ShowEntry`, or malformed. -/
inductive ShowRecord where
  | good (e : ShowEntry)
  | bad
  deriving DecidableEq, Repr

/-- Modelled from the spec: a `ShowLoader` forward cursor (the
implementation is not among the files at hand).  `remaining` are the
records not yet consumed, `pos` the number of records consumed so far, and
`terminal` the sticky terminal state once `EndOfStream` or `FormatError`
has been produced. -/
structure LoaderCursor where
  remaining : List ShowRecord
  pos : Nat
  terminal : Option LoaderTerminal
  deriving DecidableEq, Repr

/-- Result of one `NextEntry()` call. -/
inductive NextResult where
  | entry (e : ShowEntry)
  | endOfStream
  | formatError
  deriving DecidableEq, Repr

/-- Modelled from the spec: `NextEntry()` advances the cursor exactly one
record per call, or returns the sticky terminal state.  The cursor
position advances only on `Entry`; a malformed record causes an immediate,
final `FormatError` with no further advancement. -/
def nextEntry (c : LoaderCursor) : NextResult × LoaderCursor :=
  match c.terminal with
  | some .endOfStream => (.endOfStream, c)
  | some .formatError => (.formatError, c)
  | none =>
    match c.remaining with
    | [] => (.endOfStream, ⟨[], c.pos, some .endOfStream⟩)
    | .good e :: rest => (.entry e, ⟨rest, c.pos + 1, none⟩)
    | .bad :: rest => (.formatError, ⟨.bad :: rest, c.pos, some .formatError⟩)

/-- The cursor after `n` further `NextEntry()` calls. -/
def nextEntryIter (c : LoaderCursor) : Nat → LoaderCursor
  | 0 => c
  | n + 1 => nextEntryIter (nextEntry c).2 n

/-- Whether a `NextEntry()` result is terminal (`EndOfStream` or
`FormatError`). -/
def NextResult.isTerminal : NextResult → Bool
  | .entry _ => false
  | .endOfStream => true
  | .formatError => true

/-! ### CLI dispatch model (`main`) -/

/-- The flag values `main` consults, after parsing: the three primary
flags (empty string means unset) and the playback window. -/
structure Flags where
  playback : String
  record : String
  verify : String
  start : Nat
  stop : Nat
  deriving DecidableEq, Repr

/-- What `main` does after flag parsing. -/
inductive MainAction where
  | usageExit
  | playbackShow
  | recordShow
  | verifyShow
  | displayUsage
  deriving DecidableEq, Repr

/-- Embedding of the dispatch logic of `main`: the window check
(`stop > 0 && stop < start` returns `EXIT_USAGE` at once, before any core
operation), then the `playback` / `record` / `verify` branch chain, and
the no-primary-flag fallthrough that displays usage. -/
def mainDispatch (f : Flags) : MainAction :=
  if f.stop > 0 ∧ f.stop < f.start then .usageExit
  else if f.playback ≠ "" then .playbackShow
  else if f.record ≠ "" then .recordShow
  else if f.verify ≠ "" then .verifyShow
  else .displayUsage

/-! ### Spec-side comparands

These definitions follow the spec's words, not the code; claims compare
the scan against them. -/

/-- The entries the scan counts: every entry up to and including the one
(if any) at which the stop clip fires.  Follows the spec's description of
which entry is the last one counted. -/
def countedEntries (stop_ms pos : Nat) : List ShowEntry → List ShowEntry
  | [] => []
  | e :: rest =>
    if stop_ms > 0 ∧ pos + e.next_wait ≥ stop_ms then [e]
    else e :: countedEntries stop_ms (pos + e.next_wait) rest

/-- Raw per-universe frame count over a list of entries: the number of
entries addressed to universe `u`, with no clamping. -/
def rawCount (entries : List ShowEntry) (u : Nat) : Nat :=
  entries.countP (fun e => e.«universe» == u)

/-- The sequence of states the scan passes through (one per processed
entry, stopping after a stop-clip break). -/
def scanTrace (start_ms stop_ms : Nat) (s : VState) :
    List ShowEntry → List VState
  | [] => []
  | e :: rest =>
    let step := verifyStep start_ms stop_ms s e
    if step.2 then [step.1]
    else step.1 :: scanTrace start_ms stop_ms step.1 rest

/-- Number of `false → true` transitions of the `playing` flag along a
state trace, starting from flag value `b`; the clamp fires exactly at
such a transition. -/
def flipCount (b : Bool) : List VState → Nat
  | [] => 0
  | s :: rest =>
    (if b = false ∧ s.playing = true then 1 else 0) + flipCount s.playing rest

/-- The show `[(u=1,wait=100), (u=1,wait=200), (u=2,wait=50)]` used by
Scenarios A, B and C of the spec. -/
def showABC : List ShowEntry := [⟨1, 100⟩, ⟨1, 200⟩, ⟨2, 50⟩]

/-! ### Helper lemmas about one scan step and the scan trace -/

theorem scanTrace_cons (start_ms stop_ms : Nat) (s : VState) (e : ShowEntry)
    (rest : List ShowEntry) :
    scanTrace start_ms stop_ms s (e :: rest) =
      if (verifyStep start_ms stop_ms s e).2
      then [(verifyStep start_ms stop_ms s e).1]
      else (verifyStep start_ms stop_ms s e).1 ::
        scanTrace start_ms stop_ms (verifyStep start_ms stop_ms s e).1 rest := by
  rfl

theorem verifyStep_break {start_ms stop_ms : Nat} {s : VState} {e : ShowEntry}
    (h : stop_ms > 0 ∧ s.playback_pos + e.next_wait ≥ stop_ms) :
    verifyStep start_ms stop_ms s e =
      (⟨stop_ms, s.playing, bumpCount s.counts e.«universe»⟩, true) := by
  simp only [verifyStep]
  rw [if_pos h]

theorem verifyStep_cross {start_ms stop_ms : Nat} {s : VState} {e : ShowEntry}
    (hb : ¬(stop_ms > 0 ∧ s.playback_pos + e.next_wait ≥ stop_ms))
    (hc : s.playing = false ∧ s.playback_pos + e.next_wait > start_ms) :
    verifyStep start_ms stop_ms s e =
      (⟨s.playback_pos + e.next_wait, true,
        clampVerifyFrameCount (bumpCount s.counts e.«universe»)⟩, false) := by
  simp only [verifyStep]
  rw [if_neg hb, if_pos hc]

theorem verifyStep_plain {start_ms stop_ms : Nat} {s : VState} {e : ShowEntry}
    (hb : ¬(stop_ms > 0 ∧ s.playback_pos + e.next_wait ≥ stop_ms))
    (hc : ¬(s.playing = false ∧ s.playback_pos + e.next_wait > start_ms)) :
    verifyStep start_ms stop_ms s e =
      (⟨s.playback_pos + e.next_wait, s.playing,
        bumpCount s.counts e.«universe»⟩, false) := by
  simp only [verifyStep]
  rw [if_neg hb, if_neg hc]

theorem verifyScan_cons (start_ms stop_ms : Nat) (s : VState) (e : ShowEntry)
    (rest : List ShowEntry) :
    verifyScan start_ms stop_ms s (e :: rest) =
      if (verifyStep start_ms stop_ms s e).2
      then ((verifyStep start_ms stop_ms s e).1, true)
      else verifyScan start_ms stop_ms (verifyStep start_ms stop_ms s e).1 rest := by
  rfl

theorem verifyStep_playing_mono {start_ms stop_ms : Nat} {s : VState}
    {e : ShowEntry} (h : s.playing = true) :
    (verifyStep start_ms stop_ms s e).1.playing = true := by
  by_cases hb : stop_ms > 0 ∧ s.playback_pos + e.next_wait ≥ stop_ms
  · rw [verifyStep_break hb]; exact h
  · by_cases hc : s.playing = false ∧ s.playback_pos + e.next_wait > start_ms
    · rw [verifyStep_cross hb hc]
    · rw [verifyStep_plain hb hc]; exact h

theorem rawCount_nil (u : Nat) : rawCount [] u = 0 := rfl

theorem rawCount_cons (e : ShowEntry) (l : List ShowEntry) (u : Nat) :
    rawCount (e :: l) u =
      rawCount l u + (if e.«universe» = u then 1 else 0) := by
  simp [rawCount, List.countP_cons]

theorem countedEntries_cons_break {stop_ms pos : Nat} {e : ShowEntry}
    {l : List ShowEntry} (h : stop_ms > 0 ∧ pos + e.next_wait ≥ stop_ms) :
    countedEntries stop_ms pos (e :: l) = [e] := by
  simp only [countedEntries]
  rw [if_pos h]

theorem countedEntries_cons_go {stop_ms pos : Nat} {e : ShowEntry}
    {l : List ShowEntry} (h : ¬(stop_ms > 0 ∧ pos + e.next_wait ≥ stop_ms)) :
    countedEntries stop_ms pos (e :: l) =
      e :: countedEntries stop_ms (pos + e.next_wait) l := by
  simp only [countedEntries]
  rw [if_neg h]

theorem bumpCount_eval (c : Nat → Nat) (u v : Nat) :
    bumpCount c u v = if v = u then c v + 1 else c v := rfl

/-- Once `playing` is set, no further clamping happens: the scan simply
adds, for each further counted entry, one to that entry's universe. -/
theorem verifyScan_counts_of_playing (start_ms stop_ms : Nat) :
    ∀ (es : List ShowEntry) (s : VState), s.playing = true → ∀ u,
      (verifyScan start_ms stop_ms s es).1.counts u =
        s.counts u + rawCount (countedEntries stop_ms s.playback_pos es) u
  | [], s, _, u => by simp [verifyScan, countedEntries, rawCount_nil]
  | e :: rest, s, h, u => by
    by_cases hb : stop_ms > 0 ∧ s.playback_pos + e.next_wait ≥ stop_ms
    · rw [verifyScan_cons, verifyStep_break hb, countedEntries_cons_break hb]
      by_cases h2 : e.«universe» = u
      · simp [rawCount_cons, rawCount_nil, bumpCount_eval, h2]
      · simp [rawCount_cons, rawCount_nil, bumpCount_eval, h2]
        omega
    · have hc : ¬(s.playing = false ∧ s.playback_pos + e.next_wait > start_ms) := by
        rw [h]; simp
      rw [verifyScan_cons, verifyStep_plain hb hc]
      have ih := verifyScan_counts_of_playing start_ms stop_ms rest
        ⟨s.playback_pos + e.next_wait, s.playing, bumpCount s.counts e.«universe»⟩
        h u
      simp only [Bool.false_eq_true, if_false] at ih ⊢
      rw [ih, countedEntries_cons_go hb]
      by_cases h2 : e.«universe» = u <;>
        simp [rawCount_cons, bumpCount_eval, h2] <;> omega

/-- Once `playing` is `true`, the flag never flips again along the rest of
the scan. -/
theorem flipCount_zero_of_playing (start_ms stop_ms : Nat) :
    ∀ (es : List ShowEntry) (s : VState), s.playing = true →
      flipCount true (scanTrace start_ms stop_ms s es) = 0
  | [], _, _ => rfl
  | e :: rest, s, h => by
    rw [scanTrace_cons]
    have hm := @verifyStep_playing_mono start_ms stop_ms s e h
    by_cases hb : (verifyStep start_ms stop_ms s e).2 = true
    · simp [hb, flipCount, hm]
    · simp only [Bool.not_eq_true] at hb
      simp only [hb, Bool.false_eq_true, if_false, flipCount, hm]
      simpa using flipCount_zero_of_playing start_ms stop_ms rest _ hm

/-- Starting from a not-yet-playing state, the `playing` flag flips at
most once along the whole scan: the clamp fires at most once per pass. -/
theorem flipCount_le_one (start_ms stop_ms : Nat) :
    ∀ (es : List ShowEntry) (s : VState), s.playing = false →
      flipCount false (scanTrace start_ms stop_ms s es) ≤ 1
  | [], _, _ => by simp [scanTrace, flipCount]
  | e :: rest, s, h => by
    rw [scanTrace_cons]
    by_cases hb : (verifyStep start_ms stop_ms s e).2 = true
    · simp only [hb, if_true, flipCount]
      split <;> simp [flipCount]
    · simp only [Bool.not_eq_true] at hb
      simp only [hb, Bool.false_eq_true, if_false, flipCount]
      by_cases hp : (verifyStep start_ms stop_ms s e).1.playing = true
      · simp [hp, flipCount_zero_of_playing start_ms stop_ms rest _ hp]
      · simp only [Bool.not_eq_true] at hp
        simp only [hp, Bool.false_eq_true, and_false, if_false, Nat.zero_add]
        exact flipCount_le_one start_ms stop_ms rest _ hp

/-- Characterization of the `playing` flag after one step: it becomes
(or stays) set iff it already was, or the entry's cumulative position
strictly exceeds `start_ms` and the stop clip did not fire at this entry —
the stop check precedes the start check in the loop body. -/
theorem verifyStep_playing_iff (start_ms stop_ms : Nat) (s : VState)
    (e : ShowEntry) :
    (verifyStep start_ms stop_ms s e).1.playing = true ↔
      (s.playing = true ∨
        (¬(stop_ms > 0 ∧ s.playback_pos + e.next_wait ≥ stop_ms) ∧
          s.playback_pos + e.next_wait > start_ms)) := by
  by_cases hb : stop_ms > 0 ∧ s.playback_pos + e.next_wait ≥ stop_ms
  · rw [verifyStep_break hb]
    simp [hb]
  · by_cases hc : s.playing = false ∧ s.playback_pos + e.next_wait > start_ms
    · rw [verifyStep_cross hb hc]
      simp [hb, hc.2]
    · rw [verifyStep_plain hb hc]
      cases hp : s.playing with
      | true => simp
      | false =>
        simp only [hp, true_and, Bool.false_eq_true, false_or] at hc ⊢
        simp [hb, hc]

/-- With an unbounded window (`stop_ms = 0`) the stop clip never fires:
the scan consumes every decoded entry and the final `playback_pos` is the
sum of all waits. -/
theorem verifyScan_stop_zero (start_ms : Nat) :
    ∀ (es : List ShowEntry) (s : VState),
      (verifyScan start_ms 0 s es).2 = false ∧
      (verifyScan start_ms 0 s es).1.playback_pos =
        s.playback_pos + (es.map ShowEntry.next_wait).sum
  | [], s => by simp [verifyScan]
  | e :: rest, s => by
    have hb : ¬((0 : Nat) > 0 ∧ s.playback_pos + e.next_wait ≥ 0) := by simp
    by_cases hc : s.playing = false ∧ s.playback_pos + e.next_wait > start_ms
    · rw [verifyScan_cons, verifyStep_cross hb hc]
      have ih := verifyScan_stop_zero start_ms rest
        ⟨s.playback_pos + e.next_wait, true,
          clampVerifyFrameCount (bumpCount s.counts e.«universe»)⟩
      simp only [Bool.false_eq_true, if_false, List.map_cons, List.sum_cons] at ih ⊢
      exact ⟨ih.1, by rw [ih.2]; omega⟩
    · rw [verifyScan_cons, verifyStep_plain hb hc]
      have ih := verifyScan_stop_zero start_ms rest
        ⟨s.playback_pos + e.next_wait, s.playing,
          bumpCount s.counts e.«universe»⟩
      simp only [Bool.false_eq_true, if_false, List.map_cons, List.sum_cons] at ih ⊢
      exact ⟨ih.1, by rw [ih.2]; omega⟩

/-! ### Claim theorems -/

/-- C1 (counterexample): Scenario B as claimed is false on the code.  On
the show `[(1,100),(1,200),(2,50)]` with `start_ms = 150`, `stop_ms = 0`,
the reported count for universe 1 is not 2: the increment for entry 2
happens before the clamp, so the clamp lowers `u1` from 2 to 1. -/
theorem scenarioB_claimed_counts_false :
    ¬((verifyShowRun 150 0 ⟨showABC, .endOfStream⟩).counts 1 = 2) := by
  decide

/-- C1 (amended): Scenario B on the code: the clamp fires when entry 2
crosses 150 (the `playing` flag flips exactly there), the clamp eats entry
2's own increment (which was already added when the clamp runs), and the
final counts are `u1: 1`, `u2: 1`. -/
theorem scenarioB_verifier_counts :
    (verifyShowRun 150 0 ⟨showABC, .endOfStream⟩).counts 1 = 1 ∧
    (verifyShowRun 150 0 ⟨showABC, .endOfStream⟩).counts 2 = 1 ∧
    (scanTrace 150 0 initVState showABC).map VState.playing =
      [false, true, true] ∧
    (verifyShowRun 150 0 ⟨showABC, .endOfStream⟩).exit = ExitCode.ok := by
  decide

/-- C3: Scenario C on the show `[(1,100),(1,200),(2,50)]` with
`start_ms = 0`, `stop_ms = 120`: entry 1 and entry 2 are counted, the
stop clip fires at entry 2 (cumulative 300 ≥ 120) clamping `playback_pos`
to 120 and terminating the scan, so entry 2 is the last entry counted;
reported `u1: 2`, `u2: 0`, `total_time = 120`. -/
theorem scenarioC_verifier_counts :
    (verifyShowRun 0 120 ⟨showABC, .endOfStream⟩).counts 1 = 2 ∧
    (verifyShowRun 0 120 ⟨showABC, .endOfStream⟩).counts 2 = 0 ∧
    (verifyShowRun 0 120 ⟨showABC, .endOfStream⟩).total_time = 120 ∧
    (verifyScan 0 120 initVState showABC).2 = true ∧
    countedEntries 120 0 showABC = [⟨1, 100⟩, ⟨1, 200⟩] ∧
    (verifyShowRun 0 120 ⟨showABC, .endOfStream⟩).exit = ExitCode.ok := by
  decide

/-- C4: for every show whose scan ends with `EndOfStream` and an unbounded
window (`stop_ms = 0`), the reported `total_time` is the sum of all waits
minus `start_ms`, clamped to 0 when that difference would be negative. -/
theorem verifier_total_time_unbounded (start_ms : Nat)
    (entries : List ShowEntry) :
    (verifyShowRun start_ms 0 ⟨entries, .endOfStream⟩).total_time =
      (((entries.map ShowEntry.next_wait).sum : Int) - (start_ms : Int)).toNat := by
  have h2 := (verifyScan_stop_zero start_ms entries initVState).2
  simp only [verifyShowRun]
  rw [h2]
  simp only [initVState]
  split_ifs <;> omega

/-- C5 (counterexample): with both `--playback` and `--record` set (and a
valid window), `main` does not fail with the usage exit code: it
dispatches `PlaybackShow`.  The primary flags are not validated for
mutual exclusion. -/
theorem multiple_primary_flags_no_usage :
    mainDispatch ⟨"a", "b", "", 0, 0⟩ = MainAction.playbackShow ∧
    MainAction.playbackShow ≠ MainAction.usageExit := by
  decide

/-- C5 (amended): when at least one primary flag is set and the window is
valid, `main` never fails with usage; if several primary flags are set it
dispatches the first set one in the fixed priority order
`--playback`, `--record`, `--verify`. -/
theorem mainDispatch_priority (f : Flags)
    (hw : ¬(f.stop > 0 ∧ f.stop < f.start))
    (hset : f.playback ≠ "" ∨ f.record ≠ "" ∨ f.verify ≠ "") :
    mainDispatch f ≠ MainAction.usageExit ∧
    mainDispatch f ≠ MainAction.displayUsage ∧
    (mainDispatch f = MainAction.playbackShow ↔ f.playback ≠ "") ∧
    (mainDispatch f = MainAction.recordShow ↔
      (f.playback = "" ∧ f.record ≠ "")) ∧
    (mainDispatch f = MainAction.verifyShow ↔
      (f.playback = "" ∧ f.record = "" ∧ f.verify ≠ "")) := by
  simp only [mainDispatch, if_neg hw]
  by_cases h1 : f.playback = "" <;> by_cases h2 : f.record = "" <;>
    by_cases h3 : f.verify = "" <;> simp_all

/-- C5 (witness for the amended theorem): with all three primary flags
set and a valid window, the dispatch is not a usage failure. -/
theorem mainDispatch_priority_witness :
    mainDispatch ⟨"a", "b", "c", 0, 0⟩ ≠ MainAction.usageExit :=
  (mainDispatch_priority ⟨"a", "b", "c", 0, 0⟩ (by decide) (by decide)).1

/-- C6: whenever `stop` is nonzero and `stop < start`, `main` returns the
usage exit code at once; in the dispatch model this action is distinct
from every core operation (no show file is opened, nothing is run). -/
theorem invalid_window_usage (f : Flags) (h1 : f.stop > 0)
    (h2 : f.stop < f.start) :
    mainDispatch f = MainAction.usageExit := by
  unfold mainDispatch
  rw [if_pos ⟨h1, h2⟩]

/-- C6 (witness): the spec's Scenario E input `start=200, stop=100`. -/
theorem invalid_window_usage_witness :
    mainDispatch ⟨"", "", "x", 200, 100⟩ = MainAction.usageExit :=
  invalid_window_usage ⟨"", "", "x", 200, 100⟩ (by decide) (by decide)

/-- C2 (counterexample): on the show `[(1,100)]` with `start_ms = 50`,
`stop_ms = 100`, the first (and only) entry's cumulative time 100 strictly
exceeds `start_ms`, yet the clamp never fires in the pass: the stop clip
breaks the loop before the start-crossing check runs, `playing` never
flips and the flip count of the pass is 0 — refuting "fires exactly on
the first entry at which the cumulative time strictly exceeds
`start_ms`". -/
theorem clamp_misses_first_crossing :
    cumWait [⟨1, 100⟩] 1 > 50 ∧
    flipCount false (scanTrace 50 100 initVState [⟨1, 100⟩]) = 0 ∧
    (verifyScan 50 100 initVState [⟨1, 100⟩]).1.playing = false := by
  decide

/-- C2 (amended): the clamp replaces every universe's counter with
`min(c, 1)`; it fires at most once per pass (the `playing` flag flips at
most once); and it fires at a given entry iff `playing` was still unset,
the entry's cumulative time strictly exceeds `start_ms` and the stop clip
did not fire at that same entry — the stop check precedes the start
check, so a crossing entry that also reaches `stop_ms` never clamps. -/
theorem clamp_law (start_ms stop_ms : Nat) :
    (∀ (m : Nat → Nat) (u : Nat), clampVerifyFrameCount m u = min (m u) 1) ∧
    (∀ entries : List ShowEntry,
      flipCount false (scanTrace start_ms stop_ms initVState entries) ≤ 1) ∧
    (∀ (s : VState) (e : ShowEntry),
      (verifyStep start_ms stop_ms s e).1.playing = true ↔
        (s.playing = true ∨
          (¬(stop_ms > 0 ∧ s.playback_pos + e.next_wait ≥ stop_ms) ∧
            s.playback_pos + e.next_wait > start_ms))) := by
  refine ⟨?_, ?_, verifyStep_playing_iff start_ms stop_ms⟩
  · intro m u
    simp only [clampVerifyFrameCount]
    split <;> omega
  · intro entries
    exact flipCount_le_one start_ms stop_ms entries initVState rfl

/-- C7: classification of `VerifyShow`'s exit status by how the scan
ended: `NOINPUT` iff `Load()` failed (no entries consumed); `OK` iff the
scan ended via the stop clip or the terminal loader state was
`END_OF_FILE`; `DATAERR` iff the decoded entries ran out into a format
error; and the counts accumulated before a format error are kept (they
are the same as with a clean end on the same decoded entries). -/
theorem verify_exit_classification (start_ms stop_ms : Nat) :
    verifyShowExit start_ms stop_ms none = ExitCode.noinput ∧
    (∀ o : LoaderOutcome,
      verifyShowExit start_ms stop_ms (some o) = ExitCode.ok ↔
        ((verifyScan start_ms stop_ms initVState o.entries).2 = true ∨
          o.terminal = LoaderTerminal.endOfStream)) ∧
    (∀ o : LoaderOutcome,
      verifyShowExit start_ms stop_ms (some o) = ExitCode.dataerr ↔
        ((verifyScan start_ms stop_ms initVState o.entries).2 = false ∧
          o.terminal = LoaderTerminal.formatError)) ∧
    (∀ (entries : List ShowEntry),
      (verifyShowRun start_ms stop_ms ⟨entries, .formatError⟩).counts =
        (verifyShowRun start_ms stop_ms ⟨entries, .endOfStream⟩).counts) := by
  refine ⟨rfl, ?_, ?_, ?_⟩
  · intro o
    simp only [verifyShowExit, verifyShowRun]
    by_cases hbrk : (verifyScan start_ms stop_ms initVState o.entries).2 = true
    · simp [hbrk]
    · simp only [Bool.not_eq_true] at hbrk
      cases ht : o.terminal <;> simp [hbrk, ht]
  · intro o
    simp only [verifyShowExit, verifyShowRun]
    by_cases hbrk : (verifyScan start_ms stop_ms initVState o.entries).2 = true
    · simp [hbrk]
    · simp only [Bool.not_eq_true] at hbrk
      cases ht : o.terminal <;> simp [hbrk, ht]
  · intro entries
    rfl

/-- Helper for C8: a call that produces a terminal result leaves the
cursor at a fixed point of `nextEntry` and does not advance the position. -/
theorem nextEntry_fixed_of_terminal (c : LoaderCursor)
    (h : (nextEntry c).1.isTerminal = true) :
    nextEntry (nextEntry c).2 = ((nextEntry c).1, (nextEntry c).2) ∧
    (nextEntry c).2.pos = c.pos := by
  rcases c with ⟨rem, pos, term⟩
  cases term with
  | some t => cases t <;> simp [nextEntry]
  | none =>
    cases rem with
    | nil => simp [nextEntry]
    | cons r rest =>
      cases r with
      | good e => simp [nextEntry, NextResult.isTerminal] at h
      | bad => simp [nextEntry]

/-- C8: Loader terminal-state idempotence.  Once `NextEntry` returns
`EndOfStream` or `FormatError`, the cursor no longer changes: after any
number of further calls the cursor is unchanged, the next call still
returns the identical terminal result with the identical cursor, and the
cursor position never advanced (including at the terminal-producing call
itself). -/
theorem nextEntry_terminal_sticky (c : LoaderCursor)
    (h : (nextEntry c).1.isTerminal = true) (n : Nat) :
    nextEntryIter (nextEntry c).2 n = (nextEntry c).2 ∧
    nextEntry (nextEntryIter (nextEntry c).2 n) =
      ((nextEntry c).1, (nextEntry c).2) ∧
    (nextEntryIter (nextEntry c).2 n).pos = c.pos := by
  have hfix := nextEntry_fixed_of_terminal c h
  have hiter : ∀ m, nextEntryIter (nextEntry c).2 m = (nextEntry c).2 := by
    intro m
    induction m with
    | zero => rfl
    | succ k ih =>
      show nextEntryIter (nextEntry (nextEntry c).2).2 k = (nextEntry c).2
      rw [hfix.1]
      exact ih
  refine ⟨hiter n, ?_, ?_⟩
  · rw [hiter n, hfix.1]
  · rw [hiter n, hfix.2]

/-- C8 (witness): a cursor sitting on a malformed record: the first call
returns `FormatError`, and after three further calls the cursor is
unchanged, the result is the same `FormatError`, and the position is
still 5. -/
theorem nextEntry_terminal_sticky_witness :
    nextEntryIter (nextEntry ⟨[ShowRecord.bad], 5, none⟩).2 3 =
      (nextEntry ⟨[ShowRecord.bad], 5, none⟩).2 ∧
    nextEntry (nextEntryIter (nextEntry ⟨[ShowRecord.bad], 5, none⟩).2 3) =
      ((nextEntry ⟨[ShowRecord.bad], 5, none⟩).1,
        (nextEntry ⟨[ShowRecord.bad], 5, none⟩).2) ∧
    (nextEntryIter (nextEntry ⟨[ShowRecord.bad], 5, none⟩).2 3).pos = 5 :=
  nextEntry_terminal_sticky ⟨[ShowRecord.bad], 5, none⟩ (by decide) 3

/-- C9 (counterexample): with `start_ms = 0` the clamp is not always a
no-op.  On the show `[(1,0),(1,0),(1,5)]` (unbounded window, so every
entry is counted) the raw count for universe 1 is 3, but the pass reports
1: the two zero-wait entries keep `playback_pos = 0`, so the crossing of
`start_ms = 0` only happens at the third entry, when universe 1 has
already accumulated 3 — which the clamp then lowers to 1. -/
theorem start_zero_clamp_not_noop :
    countedEntries 0 0 [⟨1, 0⟩, ⟨1, 0⟩, ⟨1, 5⟩] =
      [⟨1, 0⟩, ⟨1, 0⟩, ⟨1, 5⟩] ∧
    rawCount [⟨1, 0⟩, ⟨1, 0⟩, ⟨1, 5⟩] 1 = 3 ∧
    (verifyShowRun 0 0 ⟨[⟨1, 0⟩, ⟨1, 0⟩, ⟨1, 5⟩], .endOfStream⟩).counts 1
      = 1 := by
  decide

/-- Helper for C9: clamping right after the very first increment of the
empty map is a no-op (every value is 0 or 1). -/
theorem clamp_bump_zero (v : Nat) :
    clampVerifyFrameCount (bumpCount (fun _ => 0) v) =
      bumpCount (fun _ => 0) v := by
  funext u
  simp only [clampVerifyFrameCount, bumpCount]
  split <;> split <;> omega

/-- C9 (amended): with `start_ms = 0`, provided the first entry has a
positive wait (so the crossing of 0 happens already at the first counted
entry, when no counter exceeds 1), the clamp is a no-op and every
reported per-universe counter equals the raw number of counted entries
for that universe. -/
theorem verify_start_zero_counts_raw (stop_ms : Nat) (t : LoaderTerminal)
    (entries : List ShowEntry)
    (h : ∀ e ∈ entries.take 1, 0 < e.next_wait) :
    ∀ u, (verifyShowRun 0 stop_ms ⟨entries, t⟩).counts u =
      rawCount (countedEntries stop_ms 0 entries) u := by
  cases entries with
  | nil =>
    intro u
    simp [verifyShowRun, verifyScan, countedEntries, rawCount_nil, initVState]
  | cons e rest =>
    have hw : 0 < e.next_wait := h e (by simp)
    intro u
    simp only [verifyShowRun]
    by_cases hb : stop_ms > 0 ∧
        initVState.playback_pos + e.next_wait ≥ stop_ms
    · rw [verifyScan_cons, verifyStep_break hb]
      have hb' : stop_ms > 0 ∧ (0 : Nat) + e.next_wait ≥ stop_ms := hb
      rw [countedEntries_cons_break hb']
      by_cases h2 : e.«universe» = u
      · simp [rawCount_cons, rawCount_nil, bumpCount_eval, h2, initVState]
      · simp [rawCount_cons, rawCount_nil, bumpCount_eval, h2, initVState]
        omega
    · have hc : initVState.playing = false ∧
          initVState.playback_pos + e.next_wait > 0 := by
        refine ⟨rfl, ?_⟩
        show 0 + e.next_wait > 0
        omega
      rw [verifyScan_cons, verifyStep_cross hb hc]
      simp only [Bool.false_eq_true, if_false]
      rw [verifyScan_counts_of_playing 0 stop_ms rest
        ⟨initVState.playback_pos + e.next_wait, true,
          clampVerifyFrameCount (bumpCount initVState.counts e.«universe»)⟩
        rfl u]
      have hb' : ¬(stop_ms > 0 ∧ (0 : Nat) + e.next_wait ≥ stop_ms) := hb
      rw [countedEntries_cons_go hb']
      have hz : initVState.counts = fun _ => 0 := rfl
      rw [hz, clamp_bump_zero]
      by_cases h2 : e.«universe» = u
      · simp [rawCount_cons, bumpCount_eval, h2, initVState]
        omega
      · simp [rawCount_cons, bumpCount_eval, h2, initVState]
        omega

/-- C9 (witness for the amended theorem): on Scenario A's show (first
wait 100 > 0), with `start_ms = 0` the reported count for universe 1
equals the raw count of counted entries for universe 1. -/
theorem verify_start_zero_counts_raw_witness :
    (verifyShowRun 0 0 ⟨showABC, .endOfStream⟩).counts 1 =
      rawCount (countedEntries 0 0 showABC) 1 :=
  verify_start_zero_counts_raw 0 .endOfStream showABC (by decide) 1

theorem cumWait_zero (l : List ShowEntry) : cumWait l 0 = 0 := by
  simp [cumWait]

theorem cumWait_cons (e : ShowEntry) (l : List ShowEntry) (n : Nat) :
    cumWait (e :: l) (n + 1) = e.next_wait + cumWait l n := by
  simp [cumWait, List.take_succ_cons]

theorem verifyScan_cons_of_break {start_ms stop_ms : Nat} {s : VState}
    {e : ShowEntry} {rest : List ShowEntry}
    (h : (verifyStep start_ms stop_ms s e).2 = true) :
    verifyScan start_ms stop_ms s (e :: rest) =
      ((verifyStep start_ms stop_ms s e).1, true) := by
  rw [verifyScan_cons, if_pos h]

theorem verifyScan_cons_of_go {start_ms stop_ms : Nat} {s : VState}
    {e : ShowEntry} {rest : List ShowEntry}
    (h : (verifyStep start_ms stop_ms s e).2 = false) :
    verifyScan start_ms stop_ms s (e :: rest) =
      verifyScan start_ms stop_ms (verifyStep start_ms stop_ms s e).1 rest := by
  rw [verifyScan_cons, if_neg (by simp [h])]

/-- Helper for C10: when every cumulative position up to entry `i` stays
at or below `start_ms` and entry `i`'s cumulative position reaches
`stop_ms` (with `start_ms < stop_ms`), the scan breaks at entry `i` via
the stop clip, `playing` never flips (the clamp never fires), and the
counts are the raw counts of the first `i + 1` entries. -/
theorem scan_stop_before_start (start_ms stop_ms : Nat)
    (hss : start_ms < stop_ms) :
    ∀ (entries : List ShowEntry) (i : Nat) (s : VState),
      s.playing = false →
      i < entries.length →
      (∀ j < i + 1, s.playback_pos + cumWait entries j ≤ start_ms) →
      stop_ms ≤ s.playback_pos + cumWait entries (i + 1) →
      (verifyScan start_ms stop_ms s entries).2 = true ∧
      (verifyScan start_ms stop_ms s entries).1.playing = false ∧
      ∀ u, (verifyScan start_ms stop_ms s entries).1.counts u =
        s.counts u + rawCount (entries.take (i + 1)) u
  | [], i, s, _, hi, _, _ => absurd hi (by simp)
  | e :: rest, 0, s, hp, _, _, hstop => by
    rw [cumWait_cons, cumWait_zero] at hstop
    have hb : stop_ms > 0 ∧ s.playback_pos + e.next_wait ≥ stop_ms :=
      ⟨by omega, by omega⟩
    rw [verifyScan_cons_of_break (by rw [verifyStep_break hb])]
    rw [verifyStep_break hb]
    refine ⟨rfl, hp, fun u => ?_⟩
    rw [List.take_succ_cons, List.take_zero]
    by_cases h2 : e.«universe» = u
    · simp [rawCount_cons, rawCount_nil, bumpCount_eval, h2]
    · simp [rawCount_cons, rawCount_nil, bumpCount_eval, h2]
      omega
  | e :: rest, i + 1, s, hp, hi, hleast, hstop => by
    have h1 : s.playback_pos + e.next_wait ≤ start_ms := by
      have := hleast 1 (by omega)
      rw [cumWait_cons, cumWait_zero] at this
      omega
    have hb : ¬(stop_ms > 0 ∧ s.playback_pos + e.next_wait ≥ stop_ms) :=
      fun hcontra => absurd hcontra.2 (by omega)
    have hc : ¬(s.playing = false ∧ s.playback_pos + e.next_wait > start_ms) :=
      fun hcontra => absurd hcontra.2 (by omega)
    rw [verifyScan_cons_of_go (by rw [verifyStep_plain hb hc])]
    rw [verifyStep_plain hb hc]
    have hp' : (⟨s.playback_pos + e.next_wait, s.playing,
        bumpCount s.counts e.«universe»⟩ : VState).playing = false := hp
    have hi' : i < rest.length := by
      simp only [List.length_cons] at hi
      omega
    have hleast' : ∀ j < i + 1,
        (⟨s.playback_pos + e.next_wait, s.playing,
          bumpCount s.counts e.«universe»⟩ : VState).playback_pos +
            cumWait rest j ≤ start_ms := by
      intro j hj
      have := hleast (j + 1) (by omega)
      rw [cumWait_cons] at this
      show s.playback_pos + e.next_wait + cumWait rest j ≤ start_ms
      omega
    have hstop' : stop_ms ≤
        (⟨s.playback_pos + e.next_wait, s.playing,
          bumpCount s.counts e.«universe»⟩ : VState).playback_pos +
            cumWait rest (i + 1) := by
      rw [cumWait_cons] at hstop
      show stop_ms ≤ s.playback_pos + e.next_wait + cumWait rest (i + 1)
      omega
    obtain ⟨hA, hB, hC⟩ := scan_stop_before_start start_ms stop_ms hss rest i
      ⟨s.playback_pos + e.next_wait, s.playing,
        bumpCount s.counts e.«universe»⟩ hp' hi' hleast' hstop'
    refine ⟨hA, hB, fun u => ?_⟩
    rw [hC u, List.take_succ_cons]
    by_cases h2 : e.«universe» = u
    · simp [rawCount_cons, bumpCount_eval, h2]
      omega
    · simp [rawCount_cons, bumpCount_eval, h2]
      omega

/-- C10: because the stop-clip check precedes the start-crossing check,
for a window with `0 < start_ms < stop_ms` in which the first entry whose
cumulative time exceeds `start_ms` (entry `i`, every earlier cumulative
time being at most `start_ms`) also reaches `stop_ms`, the pass ends via
the stop clip at that entry, the clamp never fires (`playing` stays
`false`), and every pre-start frame stays individually counted: the
reported counters are the raw per-universe counts of the first `i + 1`
entries. -/
theorem stop_clip_preempts_clamp (start_ms stop_ms : Nat)
    (entries : List ShowEntry) (i : Nat)
    (_h0 : 0 < start_ms) (hss : start_ms < stop_ms)
    (hi : i < entries.length)
    (hleast : ∀ j < i + 1, cumWait entries j ≤ start_ms)
    (hstop : stop_ms ≤ cumWait entries (i + 1)) :
    (verifyScan start_ms stop_ms initVState entries).2 = true ∧
    (verifyScan start_ms stop_ms initVState entries).1.playing = false ∧
    start_ms < cumWait entries (i + 1) ∧
    ∀ u, (verifyScan start_ms stop_ms initVState entries).1.counts u =
      rawCount (entries.take (i + 1)) u := by
  have hleast' : ∀ j < i + 1,
      initVState.playback_pos + cumWait entries j ≤ start_ms := by
    intro j hj
    have := hleast j hj
    show 0 + cumWait entries j ≤ start_ms
    omega
  have hstop' : stop_ms ≤ initVState.playback_pos + cumWait entries (i + 1) := by
    show stop_ms ≤ 0 + cumWait entries (i + 1)
    omega
  obtain ⟨hA, hB, hC⟩ := scan_stop_before_start start_ms stop_ms hss entries i
    initVState rfl hi hleast' hstop'
  refine ⟨hA, hB, by omega, fun u => ?_⟩
  rw [hC u]
  show 0 + rawCount (entries.take (i + 1)) u = rawCount (entries.take (i + 1)) u
  omega

/-- C10 (witness): show `[(1,30),(1,20),(1,100)]`, window
`start = 60 < stop = 140`: cumulative times 30, 50 ≤ 60, and the first
crossing (150 > 60, at entry index 2) also reaches 140; the scan stops
there, `playing` stays `false`, and universe 1 keeps all 3 raw frames. -/
theorem stop_clip_preempts_clamp_witness :
    (verifyScan 60 140 initVState [⟨1, 30⟩, ⟨1, 20⟩, ⟨1, 100⟩]).2 = true ∧
    (verifyScan 60 140 initVState [⟨1, 30⟩, ⟨1, 20⟩, ⟨1, 100⟩]).1.playing
      = false ∧
    (verifyScan 60 140 initVState [⟨1, 30⟩, ⟨1, 20⟩, ⟨1, 100⟩]).1.counts 1 =
      rawCount ([⟨1, 30⟩, ⟨1, 20⟩, ⟨1, 100⟩].take 3) 1 :=
  have h := stop_clip_preempts_clamp 60 140 [⟨1, 30⟩, ⟨1, 20⟩, ⟨1, 100⟩] 2
    (by decide) (by decide) (by decide) (by decide) (by decide)
  ⟨h.1, h.2.1, h.2.2.2 1⟩
